import Mathlib

/-!
Verification of the Todo repository core of a FastAPI service
(`api/repository.py`, `api/main.py`) against its specification.

The embedding is shallow: each Python function is translated into an
executable Lean function. Stateful repositories become explicit state
passing; the in-memory store is the insertion-ordered association list
behind a Python dict, and the SQL-backed store is the list of committed
table rows plus the pending (session-added, uncommitted) rows of the
current unit of work. The database engine itself is external to the
repository; its constraint enforcement at commit is modelled from the
schema declared in `TodoInDB` (String(128) columns, unique key) and the
spec's error taxonomy.
-/

set_option maxRecDepth 8000

namespace FastapiTodo

/-- Value type exchanged with callers, from the pydantic model `Todo` in
`api/repository.py`: `key: str`, `value: str`, `done: bool = False`. -/
structure Todo where
  key : String
  value : String
  done : Bool := false
  deriving DecidableEq, Repr

/-- Query-description value type, from the pydantic model `TodoFilter`:
all four fields are `Optional` with default `None`, and `limit` is a plain
`int` with no non-negativity constraint. -/
structure TodoFilter where
  limit : Option Int := none
  key_contains : Option String := none
  value_contains : Option String := none
  done : Option Bool := none
  deriving DecidableEq, Repr

/-- Python truthiness of `Optional[str]`: `not x` is true exactly when the
field is `None` or the empty string. -/
def optStrFalsy : Option String → Bool
  | none => true
  | some s => s == ""

/-- Python truthiness of `Optional[bool]`: `not x` is true exactly when the
field is `None` or `False`. -/
def optBoolFalsy : Option Bool → Bool
  | none => true
  | some b => !b

/-- Substring search on character lists: true when the first list occurs
contiguously inside the second. -/
def subListOf (needle : List Char) : List Char → Bool
  | [] => needle.isEmpty
  | c :: rest => needle.isPrefixOf (c :: rest) || subListOf needle rest

/-- Python's `needle in hay` on strings: case-sensitive literal substring
containment. -/
def pyIn (needle hay : String) : Bool :=
  subListOf needle.toList hay.toList

/-- Python list slicing `xs[:stop]`: `None` keeps the whole list, a
non-negative stop keeps the first `stop` elements, and a negative stop
keeps all but the last `-stop` elements (clamped at zero). -/
def pySliceStop (stop : Option Int) (xs : List α) : List α :=
  match stop with
  | none => xs
  | some i => xs.take (if i < 0 then ((xs.length : Int) + i).toNat else i.toNat)

/-- State of `InMemoryTodoRepository`: the backing Python dict
`self.data : key → Todo` as an insertion-ordered association list. -/
abbrev IMStore := List (String × Todo)

/-- `InMemoryTodoRepository.save`: `self.data[todo.key] = todo`. A dict
assignment replaces an existing entry in place (keeping its position) and
otherwise appends; it never fails and performs no validation. -/
def imSave (t : Todo) (s : IMStore) : IMStore :=
  if s.any (fun p => p.1 == t.key) then
    s.map (fun p => if p.1 == t.key then (p.1, t) else p)
  else
    s ++ [(t.key, t)]

/-- `InMemoryTodoRepository.get_by_key`: `self.data.get(key)`, an exact
key lookup returning `None` when the key is absent. -/
def imGetByKey (k : String) (s : IMStore) : Option Todo :=
  (s.find? (fun p => p.1 == k)).map Prod.snd

/-- The filter lambda inside `InMemoryTodoRepository.get`, with Python's
truthiness clause structure kept intact:
`(not f.key_contains or f.key_contains in todo.key) and
 (not f.value_contains or f.value_contains in todo.value) and
 (not f.done or f.done == todo.done)`. -/
def imMatches (f : TodoFilter) (t : Todo) : Bool :=
  (optStrFalsy f.key_contains || pyIn (f.key_contains.getD "") t.key)
    && (optStrFalsy f.value_contains || pyIn (f.value_contains.getD "") t.value)
    && (optBoolFalsy f.done || f.done.getD false == t.done)

/-- `InMemoryTodoRepository.get`: linear scan of `self.data.values()` with
the filter lambda, then the slice `[: todo_filter.limit]`. -/
def imGet (f : TodoFilter) (s : IMStore) : List Todo :=
  pySliceStop f.limit ((s.map Prod.snd).filter (imMatches f))

/-- A row of the `todo` table, from the mapped class `TodoInDB`: `key`
String(128) not null unique, `value` String(128) not null, `done` Boolean
with column default `False`. The surrogate autoincrement `id` is never
exposed across the interface and is omitted. -/
structure TodoInDB where
  key : String
  value : String
  done : Bool
  deriving DecidableEq, Repr

/-- Error taxonomy surfaced by the SQL-backed implementation, per the
spec: a uniqueness violation on `key` surfaces as `DuplicateKey`
(SQLAlchemy `IntegrityError`), a length violation as `ValidationError`
(SQLAlchemy `DataError`); both are `DatabaseError`s. -/
inductive DBError
  | DuplicateKey
  | ValidationError
  deriving DecidableEq, Repr

/-- State of `SQLTodoRepository`: the committed table contents plus the
rows added to the session in the current (not yet committed) unit of
work. -/
structure SQLState where
  committed : List TodoInDB
  pending : List TodoInDB
  deriving DecidableEq, Repr

/-- `SQLTodoRepository.save`: `self._session.add(TodoInDB(key=todo.key,
value=todo.value))`. The `done` field is not passed, so the column
default `False` is what gets inserted; nothing is flushed or validated at
this point. -/
def sqlSave (t : Todo) (s : SQLState) : SQLState :=
  ⟨s.committed, s.pending ++ [⟨t.key, t.value, false⟩]⟩

/-- Constraint check the database applies when a row is inserted,
modelled from the schema declared on `TodoInDB`: `String(128)` columns
reject values longer than 128 characters (`ValidationError`) and the
unique constraint on `key` rejects a key already present
(`DuplicateKey`). -/
def rowErr (committed : List TodoInDB) (r : TodoInDB) : Option DBError :=
  if 128 < r.key.length || 128 < r.value.length then
    some .ValidationError
  else if committed.any (fun c => c.key == r.key) then
    some .DuplicateKey
  else
    none

/-- Flush of the pending rows at commit, in insertion order; the first
constraint violation aborts the whole transaction. -/
def insertRows (committed : List TodoInDB) : List TodoInDB → Except DBError (List TodoInDB)
  | [] => .ok committed
  | r :: rs =>
    match rowErr committed r with
    | some e => .error e
    | none => insertRows (committed ++ [r]) rs

/-- Clean-exit path of `SQLTodoRepository.__aexit__`: try to commit the
unit of work; on a `DatabaseError` roll the whole unit of work back
(committed table unchanged, pending discarded) and re-raise. Returns the
raised error, if any, together with the post-exit state. -/
def sqlScopeClose (s : SQLState) : Option DBError × SQLState :=
  match insertRows s.committed s.pending with
  | .ok c => (none, ⟨c, []⟩)
  | .error e => (some e, ⟨s.committed, []⟩)

/-- Row-to-caller mapping `Todo(key=..., value=..., done=...)` used by
both SQL query methods. -/
def rowToTodo (r : TodoInDB) : Todo :=
  ⟨r.key, r.value, r.done⟩

/-- `SQLTodoRepository.get_by_key`: `SELECT ... WHERE key = :key`,
first row mapped to a `Todo`, zero rows mapped to `None`. -/
def sqlGetByKey (k : String) (rows : List TodoInDB) : Option Todo :=
  (rows.find? (fun r => r.key == k)).map rowToTodo

/-- The filter chain built by `SQLTodoRepository.get`, applied in source
order, each guarded by an explicit `is not None` check: `LIKE`-containment
on `key`, then on `value`, then equality on `done`. -/
def sqlApplyFilters (f : TodoFilter) (rows : List TodoInDB) : List TodoInDB :=
  let r1 := match f.key_contains with
    | none => rows
    | some sub => rows.filter (fun r => pyIn sub r.key)
  let r2 := match f.value_contains with
    | none => r1
    | some sub => r1.filter (fun r => pyIn sub r.value)
  match f.done with
  | none => r2
  | some b => r2.filter (fun r => r.done == b)

/-- `SQLTodoRepository.get`: the filter chain, a `LIMIT` clause when
`limit is not None`, and the row-to-`Todo` mapping. -/
def sqlGet (f : TodoFilter) (rows : List TodoInDB) : List Todo :=
  let rs := sqlApplyFilters f rows
  let capped := match f.limit with
    | none => rs
    | some n => rs.take n.toNat
  capped.map rowToTodo

/-- Where-clause of the `/find` handler in `api/main.py`:
`select(Todo).where(TodoFilter == todo_filter)` compares the `TodoFilter`
class object itself with a filter instance; under Python default equality
a class is never equal to an instance, so the clause denotes `False` for
every filter. -/
def findWhere (_f : TodoFilter) : Bool :=
  false

/-- Result set the `/find` handler's query describes: the rows passing
its (constantly false) where-clause, mapped to `Todo`s. The handler
additionally calls `.begin()` and `.execute()` on the injected
`SQLTodoRepository`, which defines neither, so at runtime it errors
before even producing this empty result. -/
def mainFind (f : TodoFilter) (rows : List TodoInDB) : List Todo :=
  (rows.filter (fun _ => findWhere f)).map rowToTodo

/-- A concrete table state: the two rows saved in the spec's end-to-end
filter scenario. -/
def twoRowTable : List TodoInDB :=
  [⟨"testkey", "testvalue", false⟩, ⟨"abcde", "v", false⟩]

/-- The empty needle occurs in every haystack. -/
theorem subListOf_nil (l : List Char) : subListOf [] l = true := by
  cases l <;> rfl

/-- The boolean substring search agrees with the mathematical contiguous
substring relation on character lists. -/
theorem subListOf_iff_infix (n l : List Char) :
    subListOf n l = true ↔ n <:+: l := by
  induction l with
  | nil =>
    simp [subListOf, List.isEmpty_iff, List.infix_nil]
  | cons c t ih =>
    simp [subListOf, ih, List.infix_cons_iff]

/-- Python's `in` on strings is exactly contiguous-substring containment
of the character sequences: case-sensitive and literal. -/
theorem pyIn_iff_infix (needle hay : String) :
    pyIn needle hay = true ↔ needle.toList <:+: hay.toList :=
  subListOf_iff_infix _ _

/-- The empty string is contained in every string. -/
theorem pyIn_empty (hay : String) : pyIn "" hay = true :=
  subListOf_nil _

/-- Looking up a key right after the dict replaced its entry with `t`
finds `t`. -/
theorem imGetByKey_replace (t : Todo) (s : IMStore)
    (h : s.any (fun p => p.1 == t.key) = true) :
    imGetByKey t.key (s.map (fun q => if q.1 == t.key then (q.1, t) else q)) = some t := by
  induction s with
  | nil => simp at h
  | cons p ps ih =>
    cases hp : p.1 == t.key with
    | true =>
      have hfp : (if p.1 == t.key then (p.1, t) else p) = (p.1, t) := by simp [hp]
      have hpos : ((fun q : String × Todo => q.1 == t.key) (p.1, t)) = true := hp
      have hfind : List.find? (fun q : String × Todo => q.1 == t.key)
          ((p.1, t) :: ps.map (fun q => if q.1 == t.key then (q.1, t) else q))
          = some (p.1, t) := List.find?_cons_of_pos _ hpos
      show (((p :: ps).map (fun q => if q.1 == t.key then (q.1, t) else q)).find?
        (fun q => q.1 == t.key)).map Prod.snd = some t
      rw [List.map_cons, hfp, hfind]
      rfl
    | false =>
      have hfp : (if p.1 == t.key then (p.1, t) else p) = p := by simp [hp]
      have hneg : ¬ ((fun q : String × Todo => q.1 == t.key) p = true) := by simp [hp]
      have hrest : ps.any (fun q => q.1 == t.key) = true := by
        rw [List.any_cons, hp] at h
        simpa using h
      have hfind : List.find? (fun q : String × Todo => q.1 == t.key)
          (p :: ps.map (fun q => if q.1 == t.key then (q.1, t) else q))
          = List.find? (fun q : String × Todo => q.1 == t.key)
              (ps.map (fun q => if q.1 == t.key then (q.1, t) else q)) :=
        List.find?_cons_of_neg _ hneg
      show (((p :: ps).map (fun q => if q.1 == t.key then (q.1, t) else q)).find?
        (fun q => q.1 == t.key)).map Prod.snd = some t
      rw [List.map_cons, hfp, hfind]
      exact ih hrest

/-- Looking up a key right after the dict appended a fresh entry `t`
finds `t`. -/
theorem imGetByKey_append (t : Todo) (s : IMStore)
    (h : s.any (fun p => p.1 == t.key) = false) :
    imGetByKey t.key (s ++ [(t.key, t)]) = some t := by
  induction s with
  | nil => simp [imGetByKey]
  | cons p ps ih =>
    have hp : (p.1 == t.key) = false := by
      cases hb : p.1 == t.key
      · rfl
      · rw [List.any_cons, hb] at h; simp at h
    have hrest : ps.any (fun p => p.1 == t.key) = false := by
      rw [List.any_cons, hp] at h; simpa using h
    have := ih hrest
    simpa [imGetByKey, hp] using this

/-- Saving a Todo in the in-memory repository always succeeds and makes
it the entry returned for its key. -/
theorem imGetByKey_imSave (t : Todo) (s : IMStore) :
    imGetByKey t.key (imSave t s) = some t := by
  unfold imSave
  cases h : s.any (fun p => p.1 == t.key) with
  | true => simpa [h] using imGetByKey_replace t s h
  | false => simpa [h] using imGetByKey_append t s h

/-- C9: for the in-memory implementation, saving t1 and then t2 with the
same key both succeed (both saves are total functions on the store, no
DuplicateKey path exists), and getByKey afterwards returns t2: save
unconditionally overwrites the entry for the key. -/
theorem c9_inmem_save_overwrites (t1 t2 : Todo) (s : IMStore) (h : t1.key = t2.key) :
    imGetByKey t1.key (imSave t2 (imSave t1 s)) = some t2 := by
  rw [h]
  exact imGetByKey_imSave t2 _

/-- Witness for C9 at a concrete overwrite. -/
theorem c9_witness :
    imGetByKey "k" (imSave ⟨"k", "v2", true⟩ (imSave ⟨"k", "v1", false⟩ [])) = some ⟨"k", "v2", true⟩ :=
  c9_inmem_save_overwrites ⟨"k", "v1", false⟩ ⟨"k", "v2", true⟩ [] rfl

/-- C1: evaluation at the failing input: the in-memory get with
done=False present returns a Todo whose done flag is True, because the
truthy check `not todo_filter.done` discards a present False criterion.
The claim says every returned Todo would have done=False. -/
theorem c1_inmem_done_false_ignored :
    imGet ⟨none, none, none, some false⟩ (imSave ⟨"a", "x", true⟩ []) = [⟨"a", "x", true⟩] := by
  rfl

/-- C2: at the spec's end-to-end input the repository-level query does
return the 2 matching records (and exactly 1 with limit=1), but the
`/find` handler's where-clause is constantly false, so the endpoint's
query yields no records at the same input. -/
theorem c2_find_endpoint_returns_nothing :
    (sqlGet ⟨none, some "e", none, none⟩ twoRowTable).length = 2
    ∧ (sqlGet ⟨some 1, some "e", none, none⟩ twoRowTable).length = 1
    ∧ mainFind ⟨none, some "e", none, none⟩ twoRowTable = [] := by
  exact ⟨rfl, rfl, rfl⟩

/-- C4: evaluation at the failing input: `SQLTodoRepository.save` builds
the row without the `done` field, so the column default False is
persisted; save-then-getByKey of a done=True Todo returns a done=False
Todo, which is not equal to the input. -/
theorem c4_sql_roundtrip_drops_done :
    sqlGetByKey "k" ((sqlScopeClose (sqlSave ⟨"k", "v", true⟩ ⟨[], []⟩)).2).committed
      = some ⟨"k", "v", false⟩
    ∧ (⟨"k", "v", false⟩ : Todo) ≠ ⟨"k", "v", true⟩ := by
  exact ⟨rfl, by decide⟩

/-- C3: a present limit of 0 yields the empty sequence from both
implementations no matter what the other criteria are (the slice `[:0]`
and SQL `LIMIT 0` both keep nothing), while an absent limit leaves the
matching sequence untruncated. -/
theorem c3_limit_semantics (f : TodoFilter) (s : IMStore) (rows : List TodoInDB) :
    (f.limit = some 0 → imGet f s = [] ∧ sqlGet f rows = [])
    ∧ (f.limit = none → imGet f s = (s.map Prod.snd).filter (imMatches f)
        ∧ sqlGet f rows = (sqlApplyFilters f rows).map rowToTodo) := by
  constructor
  · intro h
    constructor
    · simp [imGet, pySliceStop, h]
    · simp [sqlGet, h]
  · intro h
    constructor
    · simp [imGet, pySliceStop, h]
    · simp [sqlGet, h]

/-- Witness for C3: limit 0 beats a store with a matching record, for
both implementations. -/
theorem c3_witness :
    imGet ⟨some 0, none, none, some false⟩ [("a", ⟨"a", "x", true⟩)] = []
    ∧ sqlGet ⟨some 0, none, none, some false⟩ [⟨"a", "x", true⟩] = [] :=
  (c3_limit_semantics ⟨some 0, none, none, some false⟩
    [("a", ⟨"a", "x", true⟩)] [⟨"a", "x", true⟩]).1 rfl

/-- Exact-key lookup after appending a row whose key is fresh for the
prefix finds exactly that row. -/
theorem sqlGetByKey_append_fresh (k v : String) (d : Bool) (rows : List TodoInDB)
    (h : ∀ r ∈ rows, r.key ≠ k) :
    sqlGetByKey k (rows ++ [⟨k, v, d⟩]) = some ⟨k, v, d⟩ := by
  induction rows with
  | nil => simp [sqlGetByKey, rowToTodo]
  | cons r rs ih =>
    have hr : ¬ ((fun q : TodoInDB => q.key == k) r = true) := by
      simpa using h r (List.mem_cons_self r rs)
    have hfind : List.find? (fun q : TodoInDB => q.key == k) (r :: (rs ++ [⟨k, v, d⟩]))
        = List.find? (fun q : TodoInDB => q.key == k) (rs ++ [⟨k, v, d⟩]) :=
      List.find?_cons_of_neg _ hr
    show (List.find? (fun q : TodoInDB => q.key == k) ((r :: rs) ++ [⟨k, v, d⟩])).map rowToTodo
      = some ⟨k, v, d⟩
    rw [List.cons_append, hfind]
    exact ih (fun x hx => h x (List.mem_cons_of_mem r hx))

/-- C5: against the SQL-backed implementation, committing the unit of
work that saved t1 succeeds; a second unit of work saving t2 with the
same key fails with DuplicateKey at commit and is rolled back whole (the
table is exactly what it was after the first commit, nothing partial),
and t1 remains retrievable as stored via getByKey. -/
theorem c5_sql_duplicate_key_rolls_back (t1 t2 : Todo) (rows : List TodoInDB)
    (hkey : t2.key = t1.key)
    (hk : t1.key.length ≤ 128) (hv1 : t1.value.length ≤ 128) (hv2 : t2.value.length ≤ 128)
    (hfresh : ∀ r ∈ rows, r.key ≠ t1.key) :
    sqlScopeClose (sqlSave t1 ⟨rows, []⟩)
      = (none, ⟨rows ++ [⟨t1.key, t1.value, false⟩], []⟩)
    ∧ sqlScopeClose (sqlSave t2 ⟨rows ++ [⟨t1.key, t1.value, false⟩], []⟩)
      = (some DBError.DuplicateKey, ⟨rows ++ [⟨t1.key, t1.value, false⟩], []⟩)
    ∧ sqlGetByKey t1.key (rows ++ [⟨t1.key, t1.value, false⟩])
      = some ⟨t1.key, t1.value, false⟩ := by
  have hany : rows.any (fun c => c.key == t1.key) = false := by
    rw [List.any_eq_false]
    intro x hx
    simpa using hfresh x hx
  have herr1 : rowErr rows ⟨t1.key, t1.value, false⟩ = none := by
    simp [rowErr, Nat.not_lt.mpr hk, Nat.not_lt.mpr hv1, hany]
  have hanyT : (rows ++ [(⟨t1.key, t1.value, false⟩ : TodoInDB)]).any
      (fun c => c.key == t2.key) = true := by
    rw [List.any_append]
    have hone : ([(⟨t1.key, t1.value, false⟩ : TodoInDB)].any
        (fun c => c.key == t2.key)) = true := by
      simp [hkey]
    rw [hone, Bool.or_true]
  have herr2 : rowErr (rows ++ [⟨t1.key, t1.value, false⟩]) ⟨t2.key, t2.value, false⟩
      = some DBError.DuplicateKey := by
    have h1 : ¬ 128 < t2.key.length := by
      rw [hkey]
      exact Nat.not_lt.mpr hk
    simp [rowErr, h1, Nat.not_lt.mpr hv2, hanyT]
  refine ⟨?_, ?_, ?_⟩
  · simp [sqlScopeClose, sqlSave, insertRows, herr1]
  · simp [sqlScopeClose, sqlSave, insertRows, herr2]
  · exact sqlGetByKey_append_fresh t1.key t1.value false rows hfresh

/-- Witness for C5 at two concrete Todos sharing a key over an empty
table. -/
theorem c5_witness :
    sqlScopeClose (sqlSave ⟨"k", "v1", false⟩ ⟨[], []⟩)
      = (none, ⟨[⟨"k", "v1", false⟩], []⟩)
    ∧ sqlScopeClose (sqlSave ⟨"k", "v2", false⟩ ⟨[⟨"k", "v1", false⟩], []⟩)
      = (some DBError.DuplicateKey, ⟨[⟨"k", "v1", false⟩], []⟩)
    ∧ sqlGetByKey "k" [⟨"k", "v1", false⟩] = some ⟨"k", "v1", false⟩ :=
  c5_sql_duplicate_key_rolls_back ⟨"k", "v1", false⟩ ⟨"k", "v2", false⟩ []
    rfl (by decide) (by decide) (by decide) (by intro r hr; cases hr)

/-- A 129-character string, exceeding the 128-character column bound. -/
def overlongValue : String :=
  String.mk (List.replicate 129 'x')

/-- C6 counterexample: the in-memory save of a Todo whose value has 129
characters does not fail and the record is persisted in the store, so the
claim's "save fails and the state is unchanged" is false for the
in-memory implementation. -/
theorem c6_counterexample_inmem_no_validation :
    128 < overlongValue.length
    ∧ imSave ⟨"too long", overlongValue, false⟩ []
        = [("too long", ⟨"too long", overlongValue, false⟩)] := by
  exact ⟨by decide, rfl⟩

/-- C6 amended: against the SQL-backed implementation, saving a Todo
whose key or value exceeds 128 characters makes the unit of work fail
with ValidationError at commit, and the table is left unchanged. -/
theorem c6_sql_overlong_validation_error (t : Todo) (rows : List TodoInDB)
    (h : 128 < t.key.length ∨ 128 < t.value.length) :
    sqlScopeClose (sqlSave t ⟨rows, []⟩) = (some DBError.ValidationError, ⟨rows, []⟩) := by
  rcases h with h | h <;>
    simp [sqlScopeClose, sqlSave, insertRows, rowErr, h]

/-- Witness for C6 with the concrete 129-character value on an empty
table. -/
theorem c6_witness :
    sqlScopeClose (sqlSave ⟨"k", overlongValue, false⟩ ⟨[], []⟩)
      = (some DBError.ValidationError, ⟨[], []⟩) :=
  c6_sql_overlong_validation_error ⟨"k", overlongValue, false⟩ [] (Or.inr (by decide))

/-- C7: filtering by keyContains alone returns exactly the stored Todos
whose key contains the substring, in store order, for both
implementations; and the containment used is precisely case-sensitive
literal substring containment of the character sequences. -/
theorem c7_key_contains_exact (sub : String) (s : IMStore) (rows : List TodoInDB) :
    imGet ⟨none, some sub, none, none⟩ s
      = (s.map Prod.snd).filter (fun t => pyIn sub t.key)
    ∧ sqlGet ⟨none, some sub, none, none⟩ rows
      = (rows.filter (fun r => pyIn sub r.key)).map rowToTodo
    ∧ ∀ t : Todo, pyIn sub t.key = true ↔ sub.toList <:+: t.key.toList := by
  refine ⟨?_, rfl, fun t => pyIn_iff_infix sub t.key⟩
  show (s.map Prod.snd).filter (imMatches ⟨none, some sub, none, none⟩)
    = (s.map Prod.snd).filter (fun t => pyIn sub t.key)
  apply List.filter_congr
  intro t _
  show imMatches ⟨none, some sub, none, none⟩ t = pyIn sub t.key
  cases hsub : sub == "" with
  | false => simp [imMatches, optStrFalsy, optBoolFalsy, hsub]
  | true =>
    have hs : sub = "" := eq_of_beq hsub
    subst hs
    simp [imMatches, optStrFalsy, optBoolFalsy, pyIn_empty]

/-- C8: getByKey on a key with no exactly-equal stored key returns the
explicit absent result in both implementations; both lookups are total
functions, so no error is possible, and keys differing only by case or
by containing the key as a substring do not match. -/
theorem c8_get_by_key_absent (k : String) (s : IMStore) (rows : List TodoInDB)
    (h1 : ∀ p ∈ s, p.1 ≠ k) (h2 : ∀ r ∈ rows, r.key ≠ k) :
    imGetByKey k s = none ∧ sqlGetByKey k rows = none := by
  constructor
  · have hf : s.find? (fun p => p.1 == k) = none :=
      List.find?_eq_none.mpr (fun x hx => by simpa using h1 x hx)
    simp [imGetByKey, hf]
  · have hf : rows.find? (fun r => r.key == k) = none :=
      List.find?_eq_none.mpr (fun x hx => by simpa using h2 x hx)
    simp [sqlGetByKey, hf]

/-- Witness for C8: stores holding near-miss keys (a prefix of the
looked-up key and a case variant of it) still report absent. -/
theorem c8_witness :
    imGetByKey "bb" [("b", ⟨"b", "x", false⟩)] = none
    ∧ sqlGetByKey "bb" [⟨"BB", "y", false⟩] = none :=
  c8_get_by_key_absent "bb" [("b", ⟨"b", "x", false⟩)] [⟨"BB", "y", false⟩]
    (by decide) (by decide)

/-- C10: the filter type carries a plain optional integer limit, and a
present negative limit -n on the in-memory implementation slices off the
last n matches: with m matching Todos and n < m the result is the first
m - n of them, neither empty nor an error. -/
theorem c10_negative_limit_slices (f : TodoFilter) (s : IMStore) (n : Nat)
    (hn : 1 ≤ n) (hl : f.limit = some (-(n : Int)))
    (hm : n < ((s.map Prod.snd).filter (imMatches f)).length) :
    imGet f s
      = ((s.map Prod.snd).filter (imMatches f)).take
          (((s.map Prod.snd).filter (imMatches f)).length - n)
    ∧ imGet f s ≠ [] := by
  have hneg : (-(n : Int)) < 0 := by omega
  have htn : ((((s.map Prod.snd).filter (imMatches f)).length : Int) + -(n : Int)).toNat
      = ((s.map Prod.snd).filter (imMatches f)).length - n := by omega
  have h1 : imGet f s = ((s.map Prod.snd).filter (imMatches f)).take
      (((s.map Prod.snd).filter (imMatches f)).length - n) := by
    simp [imGet, pySliceStop, hl, hneg, htn]
  refine ⟨h1, ?_⟩
  rw [h1]
  intro hnil
  have hlen := congrArg List.length hnil
  simp [List.length_take] at hlen
  omega

/-- Witness for C10: limit -1 over two matching Todos returns one record,
not the empty sequence. -/
theorem c10_witness :
    imGet ⟨some (-1), none, none, none⟩
      [("a", ⟨"a", "1", false⟩), ("b", ⟨"b", "2", false⟩)] ≠ [] :=
  (c10_negative_limit_slices ⟨some (-1), none, none, none⟩
    [("a", ⟨"a", "1", false⟩), ("b", ⟨"b", "2", false⟩)] 1
    (by decide) (by decide) (by decide)).2

end FastapiTodo
